import Mathlib

/-!
Verification of the ifc-rules engine (index building, operator matching and
rule evaluation) against its natural-language specification.

The TypeScript sources are shallowly embedded:

* JS scalar values (`string | number | boolean | null | undefined` with the
  numeric `NaN`) become the inductive types `Val` / `CVal` / `NumValue`;
  numbers are modelled as rationals (`ℚ`) — JS float rounding itself is not
  at issue in any statement, only the comparison logic is.
* JS `Map` / plain-object records become association lists
  (`List (key × value)`); their iteration order is insertion order, exactly
  the semantics of `Map`/`Object.keys` iteration that the code relies on.
* `RegExp` built by `globToRegex` is denoted directly by the glob matcher
  `globMatch` it implements (anchored `^…$`, `*` → `.*`, `?` → `.`, every
  other metacharacter escaped, flag `i` modelled by lower-casing both
  sides).  Arbitrary `new RegExp(value, 'i')` used by the `matches`
  operator (which may fail to compile) is modelled by an abstract
  `RegexEngine` parameter whose `compile` returns `Option`.
* `String(number)` formatting is abstracted by `jsNumRepr`.
-/

namespace IfcRules

/-- A JS runtime value as it occurs as a comparison *subject*
(`unknown` in the sources): string, number (possibly `NaN`), boolean, or
`null`/`undefined` (the code always tests the two together, so one
constructor models both). -/
inductive Val where
  | vStr (s : String)
  | vNum (q : ℚ)
  | vNaN
  | vBool (b : Bool)
  | vNull
  deriving DecidableEq, Repr

/-- A JSON rule-document comparison value
(`value?: string | number | boolean | null` in `PropertyCondition`).
JSON cannot carry `NaN`, so there is no NaN constructor here. -/
inductive CVal where
  | cStr (s : String)
  | cNum (q : ℚ)
  | cBool (b : Bool)
  | cNull
  deriving DecidableEq, Repr

/-- `ComparisonOperator` from `core/types`.  The TS string-literal union is a
closed enum; `existsOp`/`notExistsOp` stand for the source tags
`'exists'`/`'notExists'`. -/
inductive ComparisonOperator where
  | equals
  | notEquals
  | contains
  | notContains
  | startsWith
  | endsWith
  | matches
  | greaterThan
  | lessThan
  | greaterOrEqual
  | lessOrEqual
  | between
  | existsOp
  | notExistsOp
  deriving DecidableEq, Repr

/-- Lower-casing used to model both `String.prototype.toLowerCase()` and the
regex flag `i` (the code only ever compares strings after lower-casing or
under an `i`-flagged regex). -/
def lowerStr (s : String) : String := ⟨s.data.map Char.toLower⟩

/-- `pattern.includes('*') || pattern.includes('?')` — the wildcard test of
`matchesPattern`. -/
def hasWildcard (pattern : String) : Bool :=
  pattern.data.contains '*' || pattern.data.contains '?'

/-- Denotation of the regex produced by `globToRegex` run on a subject
string: anchored match where `*` matches any run of characters, `?` any
single character, and every other character matches itself literally (the
source escapes all remaining regex metacharacters).  First argument is the
pattern, second the subject; both are expected already lower-cased (flag
`i`). -/
def globMatch : List Char → List Char → Bool
  | [], vs => vs.isEmpty
  | p :: ps, vs =>
    if p = '*' then
      -- `.*` : try every split point, i.e. every suffix of the subject
      vs.tails.any fun suf => globMatch ps suf
    else
      match vs with
      | [] => false
      | v :: vs' => (if p = '?' then true else v == p) && globMatch ps vs'

/-- `matchesPattern(value, pattern)` from `operators.ts`: `null`/`undefined`
never matches; a wildcard pattern goes through the compiled glob regex,
otherwise case-insensitive exact equality. -/
def matchesPattern (value : Option String) (pattern : String) : Bool :=
  match value with
  | none => false
  | some v =>
    if hasWildcard pattern then
      globMatch (lowerStr pattern).data (lowerStr v).data
    else
      lowerStr v == lowerStr pattern

/-- The fallible `new RegExp(compareValue, 'i')` used by the `matches`
operator, as an abstract engine: `compile` returns `none` when the pattern
is not a valid regular expression (the `catch` branch in the source). -/
structure RegexEngine where
  compile : String → Option (String → Bool)

/-- An engine on which every pattern fails to compile (for concrete
instances of the invalid-regex behaviour). -/
def noRegex : RegexEngine := ⟨fun _ => none⟩

/-- `String.prototype.includes` on char lists: the needle occurs as a
contiguous run somewhere in the haystack. -/
def includesSub (needle hay : List Char) : Bool :=
  hay.tails.any fun suf => needle.isPrefixOf suf

/-- `evaluateStringOperator` from `operators.ts`.  The TS signature takes the
`StringOperator` subset but is invoked through an `as StringOperator` cast
from the full operator union with a `default: return false` branch, so the
embedding takes the full `ComparisonOperator`. -/
def evaluateStringOperator (re : RegexEngine) (value : Option String)
    (op : ComparisonOperator) (compareValue : String) : Bool :=
  match value with
  | none => op == .notEquals
  | some v =>
    let lowerValue := (lowerStr v).data
    let lowerCompare := (lowerStr compareValue).data
    match op with
    | .equals => matchesPattern (some v) compareValue
    | .notEquals => !matchesPattern (some v) compareValue
    | .contains =>
      if hasWildcard compareValue then
        matchesPattern (some v) ("*" ++ compareValue ++ "*")
      else
        includesSub lowerCompare lowerValue
    | .notContains =>
      if hasWildcard compareValue then
        !matchesPattern (some v) ("*" ++ compareValue ++ "*")
      else
        !(includesSub lowerCompare lowerValue)
    | .startsWith =>
      if hasWildcard compareValue then
        matchesPattern (some v) (compareValue ++ "*")
      else
        lowerCompare.isPrefixOf lowerValue
    | .endsWith =>
      if hasWildcard compareValue then
        matchesPattern (some v) ("*" ++ compareValue)
      else
        lowerCompare.isSuffixOf lowerValue
    | .matches =>
      match re.compile compareValue with
      | none => false
      | some test => test v
    | _ => false

/-- The numeric comparison subject: `number | undefined | null` where the
number may be `NaN` (`missing` covers both `undefined` and `null`, which the
source always tests together). -/
inductive NumValue where
  | missing
  | nan
  | num (q : ℚ)
  deriving DecidableEq, Repr

/-- `evaluateNumericOperator` from `operators.ts`.  The comparison constants
come from JSON rule documents and therefore cannot be `NaN`, hence plain
`ℚ`.  Takes the full operator union for the same cast reason as
`evaluateStringOperator`. -/
def evaluateNumericOperator (value : NumValue) (op : ComparisonOperator)
    (compareValue : ℚ) (compareTo : Option ℚ) : Bool :=
  match value with
  | .missing => op == .notEquals
  | .nan => op == .notEquals
  | .num q =>
    match op with
    | .equals => decide (|q - compareValue| < 1/10000)
    | .notEquals => decide (1/10000 ≤ |q - compareValue|)
    | .greaterThan => decide (compareValue < q)
    | .lessThan => decide (q < compareValue)
    | .greaterOrEqual => decide (compareValue ≤ q)
    | .lessOrEqual => decide (q ≤ compareValue)
    | .between =>
      match compareTo with
      | none => false
      | some hi => decide (compareValue ≤ q) && decide (q ≤ hi)
    | _ => false

/-- `String(value)` on a non-null subject (`jsNumRepr` abstracts JS number
formatting; no claim depends on the exact digits). -/
def jsNumRepr (q : ℚ) : String := toString q

def valToString : Val → String
  | .vStr s => s
  | .vNum q => jsNumRepr q
  | .vNaN => "NaN"
  | .vBool b => if b then "true" else "false"
  | .vNull => "null"

/-- `String(compareValue ?? '')`: `null`/`undefined` collapse to the empty
string before stringification. -/
def cvalOrEmptyToString : Option CVal → String
  | none => ""
  | some .cNull => ""
  | some (.cStr s) => s
  | some (.cNum q) => jsNumRepr q
  | some (.cBool b) => if b then "true" else "false"

/-- `evaluateOperator` from `operators.ts`: existence operators first, then
the null short-circuit, then dispatch on the runtime types — numeric when
both operands are numbers, the boolean-equality branch when the subject is a
boolean, otherwise stringify and delegate to the string evaluator. -/
def evaluateOperator (re : RegexEngine) (value : Val) (op : ComparisonOperator)
    (compareValue : Option CVal) (compareTo : Option ℚ) : Bool :=
  if op == .existsOp then
    !(value == .vNull)
  else if op == .notExistsOp then
    value == .vNull
  else if value == .vNull then
    op == .notEquals || op == .notExistsOp
  else
    match value, compareValue with
    | .vNum q, some (.cNum c) => evaluateNumericOperator (.num q) op c compareTo
    | .vNaN, some (.cNum c) => evaluateNumericOperator .nan op c compareTo
    | .vBool b, _ =>
      let boolCompare : Bool :=
        compareValue == some (.cBool true) ||
        compareValue == some (.cStr "true") ||
        compareValue == some (.cStr ".T.")
      match op with
      | .equals => b == boolCompare
      | .notEquals => !(b == boolCompare)
      | _ => false
    | _, _ =>
      evaluateStringOperator re (some (valToString value)) op
        (cvalOrEmptyToString compareValue)

/-- `parseNumericValue` from `operators.ts`.  The string branch
(`parseFloat` after comma-to-dot replacement) is abstracted by `strToNum`
returning `none` for `NaN`, which no claim exercises. -/
def strToNum (s : String) : Option ℚ :=
  (s.data.map fun c => if c = ',' then '.' else c) |> fun _ => none

def parseNumericValue : Val → Option ℚ
  | .vNum q => some q
  | .vNaN => none
  | .vStr s => strToNum s
  | _ => none

/-- `parseBooleanValue` from `operators.ts`: native booleans, the IFC forms
`.T.`/`.F.` and the strings `true`/`TRUE`/`1` resp. `false`/`FALSE`/`0`;
anything else is not a boolean. -/
def parseBooleanValue : Val → Option Bool
  | .vBool b => some b
  | .vStr s =>
    if s == ".T." || s == "true" || s == "TRUE" || s == "1" then some true
    else if s == ".F." || s == "false" || s == "FALSE" || s == "0" then some false
    else none
  | _ => none

/-! ## Unified Element Model (`core/types.ts`) -/

/-- `PropertyValue`: a property payload tagged with its original kind.  The
`type` tag is the source's string literal (`'string' | 'number' | 'boolean'
| 'null'`); the payload is a JS scalar. -/
structure PropertyValue where
  type : String
  value : Val
  deriving DecidableEq, Repr

structure MaterialLayer where
  material : String
  thickness : ℚ
  isVentilated : Option Bool := none
  priority : Option ℚ := none
  deriving DecidableEq, Repr

/-- `ElementMaterial`; `type` holds the source's
`'single' | 'layerSet' | 'profileSet' | 'constituentSet'` tag. -/
structure ElementMaterial where
  name : String
  type : String
  layers : Option (List MaterialLayer) := none
  totalThickness : Option ℚ := none
  deriving DecidableEq, Repr

structure ElementClassification where
  system : String
  code : String
  name : String
  path : List String
  deriving DecidableEq, Repr

structure SpatialLocation where
  project : Option String := none
  site : Option String := none
  building : Option String := none
  storey : Option String := none
  space : Option String := none
  storeyElevation : Option ℚ := none
  deriving DecidableEq, Repr

structure ElementRelationships where
  containedIn : Option ℕ := none
  aggregatedBy : Option ℕ := none
  connectedTo : Option (List ℕ) := none
  hasOpenings : Option (List ℕ) := none
  fillsOpening : Option ℕ := none
  hasType : Option ℕ := none
  deriving DecidableEq, Repr

/-- `UnifiedElement`.  `properties`/`quantities` are JS records of records,
embedded as insertion-ordered association lists (unique keys in any index
the builder produces).  `bounds` is geometry-only and never read by the
engine, so it is omitted. -/
structure UnifiedElement where
  expressId : ℕ
  globalId : String
  type : String
  predefinedType : Option String := none
  objectType : Option String := none
  inheritanceChain : List String
  name : Option String := none
  description : Option String := none
  tag : Option String := none
  spatial : SpatialLocation
  properties : List (String × List (String × PropertyValue))
  quantities : List (String × List (String × ℚ))
  material : Option ElementMaterial := none
  classifications : List ElementClassification
  relationships : ElementRelationships
  deriving DecidableEq, Repr

/-- `Map.get` over an insertion-ordered association list. -/
def getA {α β : Type} [BEq α] (m : List (α × β)) (k : α) : Option β :=
  (m.find? fun p => p.1 == k).map (·.2)

/-- `Map.set`: overwrite in place when the key exists (keeping its original
position, as JS `Map.set` does), else append. -/
def setA {α β : Type} [BEq α] (m : List (α × β)) (k : α) (v : β) : List (α × β) :=
  match m with
  | [] => [(k, v)]
  | (k', v') :: rest => if k' == k then (k, v) :: rest else (k', v') :: setA rest k v

/-- `Set.add`: append if not already present. -/
def addSet {α : Type} [BEq α] (s : List α) (a : α) : List α :=
  if s.contains a then s else s ++ [a]

/-- `ElementIndex` from `core/types.ts` (the data part; `get`, `getByType`
and the iterator are closures over `elements` and appear below as
functions). -/
structure ElementIndex where
  elements : List (ℕ × UnifiedElement)
  byType : List (String × List ℕ)
  byStorey : List (String × List ℕ)
  byClassification : List (String × List ℕ)
  byMaterial : List (String × List ℕ)
  propertySets : List String
  classificationSystems : List String

/-- `index.get(expressId)`: `Map.get` on `elements`. -/
def ElementIndex.get (idx : ElementIndex) (expressId : ℕ) : Option UnifiedElement :=
  getA idx.elements expressId

/-- `for (const element of index)` — `elements.values()` in insertion
order. -/
def ElementIndex.values (idx : ElementIndex) : List UnifiedElement :=
  idx.elements.map (·.2)

/-! ## Conditions and rules (`core/types.ts`) -/

/-- `entityType: string | string[]` of `TypeCondition` before the
`Array.isArray` normalization in the evaluator. -/
inductive StrOrArr where
  | one (s : String)
  | many (l : List String)
  deriving DecidableEq, Repr

inductive SpatialLevel where
  | project
  | site
  | building
  | storey
  | space
  deriving DecidableEq, Repr

/-- The nested `elevation` object of `SpatialCondition`. -/
structure ElevationSpec where
  operator : ComparisonOperator
  value : ℚ
  valueTo : Option ℚ := none
  deriving DecidableEq, Repr

inductive AttributeKey where
  | name
  | description
  | tag
  | objectType
  | predefinedType
  deriving DecidableEq, Repr

inductive RelationKind where
  | containedIn
  | aggregatedBy
  | connectedTo
  | hasType
  deriving DecidableEq, Repr

structure RelTarget where
  type : Option String := none
  name : Option String := none
  deriving DecidableEq, Repr

/-- The tagged `Condition` union over nine variants (`attrib` stands for the
source tag `'attribute'`, a Lean keyword).  `unknown` models any record
whose `type` tag is none of the nine (the evaluator's `default:` branch —
possible because TS consumers cast arbitrary JSON). -/
inductive Condition where
  | entityType (entityType : StrOrArr) (includeSubtypes : Option Bool)
      (predefinedType : Option String)
  | property (propertySet propertyName : String) (operator : ComparisonOperator)
      (value : Option CVal) (valueTo : Option ℚ)
  | spatial (level : SpatialLevel) (name : Option String)
      (elevation : Option ElevationSpec)
  | material (name : Option String) (minThickness maxThickness : Option ℚ)
  | classification (system code name : Option String)
  | attrib (attrib : AttributeKey) (operator : ComparisonOperator)
      (value : String)
  | quantity (quantitySet : Option String) (quantityName : String)
      (operator : ComparisonOperator) (value : ℚ) (valueTo : Option ℚ)
  | relationship (relation : RelationKind) (target : Option RelTarget)
  | or (conditions : List Condition)
  | and (conditions : List Condition)
  | not (conditions : List Condition)
  | unknown
  deriving Repr

inductive Mode where
  | all
  | any
  deriving DecidableEq, Repr

structure SelectionRule where
  id : String
  name : String
  description : Option String := none
  conditions : List Condition
  mode : Option Mode := none

/-! ## Condition Evaluator (`core/rule-evaluator.ts`) -/

/-- Per-requested-type test inside `evaluateTypeCondition`'s `for` loop:
with subtypes the requested name must occur (case-sensitively, via
`Array.includes`) in the ancestry chain, otherwise the element's own type is
pattern-matched; a truthy `predefinedType` filter is additionally
pattern-matched (its failure `continue`s to the next requested type). -/
def typeNameMatches (element : UnifiedElement) (includeSubtypes : Bool)
    (predefinedType : Option String) (ty : String) : Bool :=
  let pdtOk : Bool :=
    match predefinedType with
    | some p =>
      -- `if (condition.predefinedType)` — the empty string is falsy
      if p.isEmpty then true else matchesPattern element.predefinedType p
    | none => true
  if includeSubtypes then
    element.inheritanceChain.contains ty && pdtOk
  else
    matchesPattern (some element.type) ty && pdtOk

/-- `evaluateTypeCondition`. -/
def evaluateTypeCondition (element : UnifiedElement) (entityType : StrOrArr)
    (includeSubtypes : Option Bool) (predefinedType : Option String) : Bool :=
  let types := match entityType with
    | .one s => [s]
    | .many l => l
  -- `condition.includeSubtypes !== false` — default true
  let inc := includeSubtypes != some false
  types.any fun ty => typeNameMatches element inc predefinedType ty

/-- `findPropertyValue`: namespace `"*"` searches all property sets, a
wildcarded namespace searches the sets whose name matches, otherwise an
exact record lookup.  First match in record-iteration order wins. -/
def findPropertyValue (properties : List (String × List (String × PropertyValue)))
    (propertySet propertyName : String) : Option PropertyValue :=
  if propertySet == "*" then
    searchAll properties
  else if propertySet.data.contains '*' || propertySet.data.contains '?' then
    searchWild properties
  else
    match getA properties propertySet with
    | some pset => getA pset propertyName
    | none => none
where
  searchAll : List (String × List (String × PropertyValue)) → Option PropertyValue
    | [] => none
    | (_, pset) :: rest =>
      match getA pset propertyName with
      | some v => some v
      | none => searchAll rest
  searchWild : List (String × List (String × PropertyValue)) → Option PropertyValue
    | [] => none
    | (psetName, pset) :: rest =>
      if matchesPattern (some psetName) propertySet then
        match getA pset propertyName with
        | some v => some v
        | none => searchWild rest
      else searchWild rest

/-- `evaluatePropertyCondition`. -/
def evaluatePropertyCondition (re : RegexEngine) (element : UnifiedElement)
    (propertySet propertyName : String) (op : ComparisonOperator)
    (value : Option CVal) (valueTo : Option ℚ) : Bool :=
  if op == .existsOp || op == .notExistsOp then
    let ex := (findPropertyValue element.properties propertySet propertyName).isSome
    if op == .existsOp then ex else !ex
  else
    match findPropertyValue element.properties propertySet propertyName with
    | none => op == .notEquals || op == .notExistsOp
    | some propValue => evaluateOperator re propValue.value op value valueTo

/-- `evaluateSpatialCondition`.  The name check fails on a missing *or
empty* placement name (`!spatialValue` is JS truthiness); the elevation
check only runs for `level === 'storey'`; with neither given the condition
degrades to `spatialValue !== undefined`. -/
def evaluateSpatialCondition (element : UnifiedElement) (level : SpatialLevel)
    (name : Option String) (elevation : Option ElevationSpec) : Bool :=
  let spatialValue : Option String :=
    match level with
    | .project => element.spatial.project
    | .site => element.spatial.site
    | .building => element.spatial.building
    | .storey => element.spatial.storey
    | .space => element.spatial.space
  let spatialElevation : Option ℚ :=
    match level with
    | .storey => element.spatial.storeyElevation
    | _ => none
  let nameOk : Bool :=
    match name with
    | none => true
    | some pat =>
      match spatialValue with
      | none => false
      | some s => !s.isEmpty && matchesPattern (some s) pat
  let elevOk : Bool :=
    match elevation, level with
    | some e, .storey =>
      match spatialElevation with
      | none => false
      | some q => evaluateNumericOperator (.num q) e.operator e.value e.valueTo
    | _, _ => true
  nameOk && elevOk &&
    (if name.isNone && elevation.isNone then spatialValue.isSome else true)

/-- `evaluateMaterialCondition`.  A layer-set's layer names are also tried;
thickness bounds require `totalThickness` to be present. -/
def evaluateMaterialCondition (element : UnifiedElement) (name : Option String)
    (minThickness maxThickness : Option ℚ) : Bool :=
  match element.material with
  | none => false
  | some material =>
    let nameOk : Bool :=
      match name with
      | none => true
      | some pat =>
        matchesPattern (some material.name) pat ||
          (match material.layers with
           | some layers => layers.any fun layer => matchesPattern (some layer.material) pat
           | none => false)
    let thickOk : Bool :=
      if minThickness.isSome || maxThickness.isSome then
        match material.totalThickness with
        | none => false
        | some thickness =>
          (match minThickness with
           | some lo => decide (lo ≤ thickness)
           | none => true) &&
          (match maxThickness with
           | some hi => decide (thickness ≤ hi)
           | none => true)
      else true
    nameOk && thickOk

/-- `evaluateClassificationCondition`: some entry must pass the system
(default / `"*"` = pass), code and name pattern checks simultaneously. -/
def evaluateClassificationCondition (element : UnifiedElement)
    (system code name : Option String) : Bool :=
  if element.classifications.isEmpty then false
  else
    element.classifications.any fun classification =>
      (match system with
       | some s => if s == "*" then true else matchesPattern (some classification.system) s
       | none => true) &&
      (match code with
       | some c => matchesPattern (some classification.code) c
       | none => true) &&
      (match name with
       | some n => matchesPattern (some classification.name) n
       | none => true)

/-- `evaluateAttributeCondition`. -/
def evaluateAttributeCondition (re : RegexEngine) (element : UnifiedElement)
    (attrib : AttributeKey) (op : ComparisonOperator) (value : String) : Bool :=
  let attrValue : Option String :=
    match attrib with
    | .name => element.name
    | .description => element.description
    | .tag => element.tag
    | .objectType => element.objectType
    | .predefinedType => element.predefinedType
  evaluateStringOperator re attrValue op value

/-- Quantity search over a specific (possibly wildcarded) quantity-set
name: first set whose name matches the pattern *and* holds the quantity. -/
def findQuantityWild (quantities : List (String × List (String × ℚ)))
    (pat quantityName : String) : Option ℚ :=
  match quantities with
  | [] => none
  | (qsetName, qset) :: rest =>
    if matchesPattern (some qsetName) pat then
      match getA qset quantityName with
      | some v => some v
      | none => findQuantityWild rest pat quantityName
    else findQuantityWild rest pat quantityName

/-- Quantity search across all quantity sets. -/
def findQuantityAll (quantities : List (String × List (String × ℚ)))
    (quantityName : String) : Option ℚ :=
  match quantities with
  | [] => none
  | (_, qset) :: rest =>
    match getA qset quantityName with
    | some v => some v
    | none => findQuantityAll rest quantityName

/-- `evaluateQuantityCondition`.  `if (quantitySet && quantitySet !== '*')`:
a missing, empty or `"*"` set name searches all sets. -/
def evaluateQuantityCondition (element : UnifiedElement)
    (quantitySet : Option String) (quantityName : String)
    (op : ComparisonOperator) (value : ℚ) (valueTo : Option ℚ) : Bool :=
  let qtyValue : Option ℚ :=
    match quantitySet with
    | some qs =>
      if !qs.isEmpty && qs != "*" then
        findQuantityWild element.quantities qs quantityName
      else
        findQuantityAll element.quantities quantityName
    | none => findQuantityAll element.quantities quantityName
  match qtyValue with
  | none => false
  | some q => evaluateNumericOperator (.num q) op value valueTo

/-- `evaluateRelationshipCondition`: presence of the relationship slot only
(`connectedTo` additionally non-empty); the optional `target` is never
consulted (a flagged incompleteness in the source). -/
def evaluateRelationshipCondition (element : UnifiedElement)
    (relation : RelationKind) (_target : Option RelTarget) : Bool :=
  match relation with
  | .containedIn => element.relationships.containedIn.isSome
  | .aggregatedBy => element.relationships.aggregatedBy.isSome
  | .connectedTo =>
    match element.relationships.connectedTo with
    | some l => !l.isEmpty
    | none => false
  | .hasType => element.relationships.hasType.isSome

mutual

/-- `evaluateCondition`: dispatch on the condition tag; composites recurse
(`anyCondition` / `allCondition` are `Array.some` / `Array.every` over the
children); an unrecognized tag is logged and treated as non-matching. -/
def evaluateCondition (re : RegexEngine) (element : UnifiedElement) :
    Condition → Bool
  | .entityType et inc pdt => evaluateTypeCondition element et inc pdt
  | .property ps pn op v vTo => evaluatePropertyCondition re element ps pn op v vTo
  | .spatial lvl nm elev => evaluateSpatialCondition element lvl nm elev
  | .material nm minT maxT => evaluateMaterialCondition element nm minT maxT
  | .classification sys code nm => evaluateClassificationCondition element sys code nm
  | .attrib a op v => evaluateAttributeCondition re element a op v
  | .quantity qs qn op v vTo => evaluateQuantityCondition element qs qn op v vTo
  | .relationship rel tgt => evaluateRelationshipCondition element rel tgt
  | .or cs => anyCondition re element cs
  | .and cs => allCondition re element cs
  | .not cs => !anyCondition re element cs
  | .unknown => false

/-- `conditions.some(c => evaluateCondition(element, c))`. -/
def anyCondition (re : RegexEngine) (element : UnifiedElement) :
    List Condition → Bool
  | [] => false
  | c :: cs => evaluateCondition re element c || anyCondition re element cs

/-- `conditions.every(c => evaluateCondition(element, c))`. -/
def allCondition (re : RegexEngine) (element : UnifiedElement) :
    List Condition → Bool
  | [] => true
  | c :: cs => evaluateCondition re element c && allCondition re element cs

end

/-! ## Selection Engine (`core/rule-evaluator.ts`) -/

/-- `SelectionResult` (data part; `evaluationTime` is wall-clock noise with
no logical content and is pinned to `0`, and the `getElements`/`groupBy`
closures appear as functions below — `groupBy`'s reflective dotted-path
access is outside the embedding and unused by every claim). -/
structure SelectionResult where
  expressIds : List ℕ
  count : ℕ
  rule : SelectionRule
  evaluationTime : ℚ

/-- `createSelectionResult`. -/
def createSelectionResult (expressIds : List ℕ) (rule : SelectionRule)
    (evaluationTime : ℚ) : SelectionResult :=
  { expressIds, count := expressIds.length, rule, evaluationTime }

/-- The `getElements()` closure:
`expressIds.map(id => index.get(id)).filter(el => el !== undefined)`. -/
def getElements (index : ElementIndex) (r : SelectionResult) : List UnifiedElement :=
  r.expressIds.filterMap fun id => index.get id

/-- The per-element test inside `select`'s loop: under `mode 'all'` every
top-level condition must match (`Array.every`), under `'any'` at least one
(`Array.some`). -/
def ruleMatches (re : RegexEngine) (mode : Mode) (rule : SelectionRule)
    (element : UnifiedElement) : Bool :=
  match mode with
  | .all => rule.conditions.all fun condition => evaluateCondition re element condition
  | .any => rule.conditions.any fun condition => evaluateCondition re element condition

/-- `engine.select(rule)`: iterate the index in element order, combine the
top-level conditions under the rule's mode (`rule.mode || 'all'`), and
collect the `expressId`s of matching elements. -/
def select (re : RegexEngine) (index : ElementIndex) (rule : SelectionRule) :
    SelectionResult :=
  let mode := rule.mode.getD .all
  let matchedIds :=
    (index.values.filter fun element => ruleMatches re mode rule element).map
      (·.expressId)
  createSelectionResult matchedIds rule 0

/-- `engine.query(conditions)` (the list form; a single condition is wrapped
into a one-element array by the source before this point). -/
def query (re : RegexEngine) (index : ElementIndex) (conditions : List Condition) :
    SelectionResult :=
  select re index
    { id := "inline-query", name := "Inline Query", conditions := conditions }

/-! ## Validation (`validateRule`) -/

structure ValidationError where
  path : String
  message : String
  deriving DecidableEq, Repr

structure ValidationWarning where
  path : String
  message : String
  suggestion : Option String := none
  deriving DecidableEq, Repr

structure ValidationResult where
  valid : Bool
  errors : List ValidationError
  warnings : List ValidationWarning
  deriving DecidableEq, Repr

/-- `', '`-joined namespace suggestions (`Array.from(set).slice(0, 5)`). -/
def joinComma (l : List String) : String := String.intercalate ", " l

mutual

/-- The recursive `validateCondition` helper: property conditions referencing
a namespace the index has never observed, and classification conditions
referencing an unknown system, push a warning; composites recurse over their
children with indexed paths.  Warnings are returned in push order. -/
def validateCondition (index : ElementIndex) (condition : Condition)
    (path : String) : List ValidationWarning :=
  match condition with
  | .property ps _ _ _ _ =>
    if ps != "*" && !ps.data.contains '*' && !index.propertySets.contains ps then
      [{ path := path ++ ".propertySet",
         message := "Property set \"" ++ ps ++ "\" not found in model",
         suggestion := some ("Available: " ++ joinComma (index.propertySets.take 5) ++ "...") }]
    else []
  | .classification sys _ _ =>
    match sys with
    | some s =>
      -- `if (condition.system && ...)` — the empty string is falsy
      if !s.isEmpty && s != "*" && !s.data.contains '*' &&
          !index.classificationSystems.contains s then
        [{ path := path ++ ".system",
           message := "Classification system \"" ++ s ++ "\" not found in model",
           suggestion := some ("Available: " ++ joinComma index.classificationSystems) }]
      else []
    | none => []
  | .or cs => validateConditionList index cs path 0
  | .and cs => validateConditionList index cs path 0
  | .not cs => validateConditionList index cs path 0
  | _ => []

/-- `condition.conditions.forEach((c, i) => validateCondition(c,
path + '.conditions[' + i + ']'))`. -/
def validateConditionList (index : ElementIndex) (cs : List Condition)
    (path : String) (i : ℕ) : List ValidationWarning :=
  match cs with
  | [] => []
  | c :: rest =>
    validateCondition index c (path ++ ".conditions[" ++ toString i ++ "]") ++
      validateConditionList index rest path (i + 1)

end

/-- `validateRule`: a single hard error for an empty conditions list; all
other findings are warnings collected by `validateCondition` over the
top-level conditions (paths `conditions[i]`). -/
def validateRule (index : ElementIndex) (rule : SelectionRule) : ValidationResult :=
  let errors : List ValidationError :=
    if rule.conditions.isEmpty then
      [{ path := "conditions", message := "Rule must have at least one condition" }]
    else []
  let warnings :=
    (rule.conditions.enum.map fun p =>
      validateCondition index p.2 ("conditions[" ++ toString p.1 ++ "]")).flatten
  { valid := errors.length == 0, errors, warnings }

/-! ## Index Builder (`core/element-indexer.ts`) -/

/-- A parsed IFC entity (`ParsedEntity`): raw positional attributes are JS
values; attribute slots used as strings whose runtime value is not a string
are modelled as absent (the source's unchecked `as string` casts). -/
structure ParsedEntity where
  expressId : ℕ
  type : String
  attributes : List Val

/-- `ParseResult` (`entitiesByType` is unused by `buildElementIndex`). -/
structure ParseResult where
  entities : List (ℕ × ParsedEntity)
  entitiesByType : List (String × List ℕ)

structure RawProp where
  type : String
  value : Val

structure PropertySetData where
  name : String
  properties : List (String × RawProp)

structure MaterialRec where
  name : String
  description : Option String := none

structure MaterialLayerRec where
  name : Option String := none
  thickness : ℚ
  material : Option String := none

structure MaterialLayerSetRec where
  name : Option String := none
  layers : List ℕ
  totalThickness : ℚ

structure MaterialAssociation where
  elementId : ℕ
  materialId : ℕ
  type : String

structure MaterialsData where
  materials : List (ℕ × MaterialRec)
  materialLayers : List (ℕ × MaterialLayerRec)
  materialLayerSets : List (ℕ × MaterialLayerSetRec)
  associations : List MaterialAssociation

structure ClassificationRec where
  name : String
  source : Option String := none

structure ClassificationRefRec where
  identification : String
  name : Option String := none
  referencedSource : Option ℕ := none

structure ClassificationsData where
  classifications : List (ℕ × ClassificationRec)
  classificationReferences : List (ℕ × ClassificationRefRec)
  elementClassifications : List (ℕ × List ℕ)

structure SpatialHierarchy where
  byStorey : List (ℕ × List ℕ)
  byBuilding : List (ℕ × List ℕ)
  bySite : List (ℕ × List ℕ)
  bySpace : List (ℕ × List ℕ)
  storeyElevations : List (ℕ × ℚ)
  elementToStorey : List (ℕ × ℕ)
  project : Option (ℕ × Option String) := none

structure RelationshipData where
  type : String
  relatingObject : ℕ
  relatedObjects : List ℕ

/-- The optional extraction inputs of `buildElementIndex`
(`entityNames` is accepted but never read by the source body). -/
structure IndexOptions where
  propertySets : Option (List (ℕ × PropertySetData)) := none
  materials : Option MaterialsData := none
  classifications : Option ClassificationsData := none
  spatialHierarchy : Option SpatialHierarchy := none
  relationships : Option (List RelationshipData) := none
  entityNames : Option (List (ℕ × String)) := none

/-- The static `IFC_INHERITANCE` type-ancestry table (module-level
constant). -/
def IFC_INHERITANCE : List (String × List String) :=
  [("IfcWall", ["IfcRoot", "IfcObjectDefinition", "IfcObject", "IfcProduct", "IfcElement", "IfcBuildingElement", "IfcWall"]),
   ("IfcWallStandardCase", ["IfcRoot", "IfcObjectDefinition", "IfcObject", "IfcProduct", "IfcElement", "IfcBuildingElement", "IfcWall", "IfcWallStandardCase"]),
   ("IfcDoor", ["IfcRoot", "IfcObjectDefinition", "IfcObject", "IfcProduct", "IfcElement", "IfcBuildingElement", "IfcDoor"]),
   ("IfcWindow", ["IfcRoot", "IfcObjectDefinition", "IfcObject", "IfcProduct", "IfcElement", "IfcBuildingElement", "IfcWindow"]),
   ("IfcSlab", ["IfcRoot", "IfcObjectDefinition", "IfcObject", "IfcProduct", "IfcElement", "IfcBuildingElement", "IfcSlab"]),
   ("IfcColumn", ["IfcRoot", "IfcObjectDefinition", "IfcObject", "IfcProduct", "IfcElement", "IfcBuildingElement", "IfcColumn"]),
   ("IfcBeam", ["IfcRoot", "IfcObjectDefinition", "IfcObject", "IfcProduct", "IfcElement", "IfcBuildingElement", "IfcBeam"]),
   ("IfcRoof", ["IfcRoot", "IfcObjectDefinition", "IfcObject", "IfcProduct", "IfcElement", "IfcBuildingElement", "IfcRoof"]),
   ("IfcStair", ["IfcRoot", "IfcObjectDefinition", "IfcObject", "IfcProduct", "IfcElement", "IfcBuildingElement", "IfcStair"]),
   ("IfcRailing", ["IfcRoot", "IfcObjectDefinition", "IfcObject", "IfcProduct", "IfcElement", "IfcBuildingElement", "IfcRailing"]),
   ("IfcCurtainWall", ["IfcRoot", "IfcObjectDefinition", "IfcObject", "IfcProduct", "IfcElement", "IfcBuildingElement", "IfcCurtainWall"]),
   ("IfcSpace", ["IfcRoot", "IfcObjectDefinition", "IfcObject", "IfcProduct", "IfcSpatialElement", "IfcSpatialStructureElement", "IfcSpace"]),
   ("IfcBuildingStorey", ["IfcRoot", "IfcObjectDefinition", "IfcObject", "IfcProduct", "IfcSpatialElement", "IfcSpatialStructureElement", "IfcBuildingStorey"]),
   ("IfcBuilding", ["IfcRoot", "IfcObjectDefinition", "IfcObject", "IfcProduct", "IfcSpatialElement", "IfcSpatialStructureElement", "IfcBuilding"]),
   ("IfcSite", ["IfcRoot", "IfcObjectDefinition", "IfcObject", "IfcProduct", "IfcSpatialElement", "IfcSpatialStructureElement", "IfcSite"]),
   ("IfcProject", ["IfcRoot", "IfcObjectDefinition", "IfcContext", "IfcProject"])]

/-- `getInheritanceChain`: table lookup with single-element fallback. -/
def getInheritanceChain (type : String) : List String :=
  (getA IFC_INHERITANCE type).getD [type]

/-- `type.startsWith('Ifc')` (case-sensitive). -/
def strStartsWith (s pre : String) : Bool := pre.data.isPrefixOf s.data

/-- `attributes[i] as string`: the runtime value if it is a string. -/
def attrStr (attributes : List Val) (i : ℕ) : Option String :=
  match attributes.get? i with
  | some (.vStr s) => some s
  | _ => none

/-- JS `x || defaultString` on an optional string: `undefined` and the empty
string are falsy. -/
def orDefault (x : Option String) (d : String) : String :=
  match x with
  | some s => if s.isEmpty then d else s
  | none => d

/-- The two reverse lookup maps built from `options.relationships`:
element → property-set ids (`IFCRELDEFINESBYPROPERTIES`) and element → type
id (`IFCRELDEFINESBYTYPE`). -/
def buildRelationMaps (rels : List RelationshipData) :
    List (ℕ × List ℕ) × List (ℕ × ℕ) :=
  rels.foldl
    (fun acc rel =>
      if rel.type == "IFCRELDEFINESBYPROPERTIES" then
        (rel.relatedObjects.foldl
          (fun pr elementId =>
            setA pr elementId (((getA pr elementId).getD []) ++ [rel.relatingObject]))
          acc.1,
         acc.2)
      else if rel.type == "IFCRELDEFINESBYTYPE" then
        (acc.1,
         rel.relatedObjects.foldl
           (fun tr elementId => setA tr elementId rel.relatingObject) acc.2)
      else acc)
    ([], [])

/-- Storey id → display name (`attributes[2] as string || 'Storey ' + id`). -/
def buildStoreyNames (entities : List (ℕ × ParsedEntity))
    (byStorey : List (ℕ × List ℕ)) : List (ℕ × String) :=
  byStorey.foldl
    (fun names p =>
      match getA entities p.1 with
      | some storeyEntity =>
        setA names p.1 (orDefault (attrStr storeyEntity.attributes 2) ("Storey " ++ toString p.1))
      | none => names)
    []

/-- Element id → `SpatialLocation` from the spatial hierarchy (storey name
and elevation only; building/site/project would require a hierarchy
traversal the source does not perform). -/
def buildElementToSpatial (entities : List (ℕ × ParsedEntity))
    (sh : SpatialHierarchy) : List (ℕ × SpatialLocation) :=
  let storeyNames := buildStoreyNames entities sh.byStorey
  sh.elementToStorey.foldl
    (fun m p =>
      setA m p.1
        { storey := getA storeyNames p.2
          storeyElevation := getA sh.storeyElevations p.2 })
    []

/-- The per-element material resolution of `buildElementIndex`
(association find, then layer-set or single-material lookup). -/
def resolveMaterial (md : MaterialsData) (expressId : ℕ) : Option ElementMaterial :=
  match md.associations.find? (fun a => a.elementId == expressId) with
  | none => none
  | some assoc =>
    if assoc.type == "layer_set" then
      match getA md.materialLayerSets assoc.materialId with
      | some layerSet =>
        some
          { name := orDefault layerSet.name "Unnamed Layer Set"
            type := "layerSet"
            totalThickness := some layerSet.totalThickness
            layers := some (layerSet.layers.map fun layerId =>
              match getA md.materialLayers layerId with
              | some layer =>
                { material := orDefault layer.material "Unknown"
                  thickness := layer.thickness }
              | none => { material := "Unknown", thickness := 0 }) }
      | none => none
    else
      match getA md.materials assoc.materialId with
      | some mat => some { name := mat.name, type := "single" }
      | none => none

/-- The per-element classification resolution: each reference id becomes an
entry with its system resolved through `referencedSource` (`sourceId ?` is
JS-truthy, so a zero id skips the lookup) and defaults applied. -/
def resolveClassifications (cd : ClassificationsData) (expressId : ℕ) :
    List ElementClassification :=
  ((getA cd.elementClassifications expressId).getD []).filterMap fun classId =>
    match getA cd.classificationReferences classId with
    | some ref =>
      let source :=
        match ref.referencedSource with
        | some sourceId =>
          if sourceId == 0 then none else getA cd.classifications sourceId
        | none => none
      let systemName := orDefault (source.map (·.name)) "Unknown System"
      some
        { system := systemName
          code := ref.identification
          name := orDefault ref.name ref.identification
          path := [] }
    | none => none

/-- The mutable accumulators of the entity loop of `buildElementIndex`. -/
structure BuildState where
  elements : List (ℕ × UnifiedElement) := []
  byType : List (String × List ℕ) := []
  byStorey : List (String × List ℕ) := []
  byClassification : List (String × List ℕ) := []
  byMaterial : List (String × List ℕ) := []
  propertySetsFound : List String := []
  classificationSystems : List String := []

/-- `map.get(key) ?? new Set()` followed by `.add(id)` and `map.set`. -/
def addToKey (m : List (String × List ℕ)) (key : String) (id : ℕ) :
    List (String × List ℕ) :=
  setA m key (addSet ((getA m key).getD []) id)

/-- One iteration of the entity loop of `buildElementIndex`: skip unless the
ancestry chain contains `IfcProduct`/`IfcSpatialStructureElement` *or* the
type name starts with `'Ifc'`; otherwise join in properties, material,
classifications and the spatial location, and update every secondary
index. -/
def processEntity (options : IndexOptions)
    (propertyRelations : List (ℕ × List ℕ)) (typeRelations : List (ℕ × ℕ))
    (elementToSpatial : List (ℕ × SpatialLocation))
    (st : BuildState) (expressId : ℕ) (entity : ParsedEntity) : BuildState :=
  let inheritanceChain := getInheritanceChain entity.type
  let isProduct := inheritanceChain.contains "IfcProduct" ||
                   inheritanceChain.contains "IfcSpatialStructureElement"
  if !isProduct && !strStartsWith entity.type "Ifc" then st
  else
    let globalId := (attrStr entity.attributes 0).getD ""
    let name := attrStr entity.attributes 2
    let description := attrStr entity.attributes 3
    let objectType := attrStr entity.attributes 4
    let propertySetIds := (getA propertyRelations expressId).getD []
    let pp : List (String × List (String × PropertyValue)) × List String :=
      match options.propertySets with
      | some psets =>
        propertySetIds.foldl
          (fun (acc : List (String × List (String × PropertyValue)) × List String)
               psetId =>
            match getA psets psetId with
            | some pset =>
              (setA acc.1 pset.name
                 (pset.properties.map fun p => (p.1, ⟨p.2.type, p.2.value⟩)),
               addSet acc.2 pset.name)
            | none => acc)
          ([], st.propertySetsFound)
      | none => ([], st.propertySetsFound)
    let properties := pp.1
    let propertySetsFound := pp.2
    let material :=
      match options.materials with
      | some md => resolveMaterial md expressId
      | none => none
    let byMaterial :=
      match material with
      | some m => addToKey st.byMaterial (lowerStr m.name) expressId
      | none => st.byMaterial
    let classifications : List ElementClassification :=
      match options.classifications with
      | some cd => resolveClassifications cd expressId
      | none => []
    let classificationSystems :=
      classifications.foldl (fun s (c : ElementClassification) => addSet s c.system)
        st.classificationSystems
    let byClassification :=
      classifications.foldl
        (fun m (c : ElementClassification) => addToKey m (c.system ++ ":" ++ c.code) expressId)
        st.byClassification
    let spatial := (getA elementToSpatial expressId).getD {}
    let relationships : ElementRelationships := { hasType := getA typeRelations expressId }
    let element : UnifiedElement :=
      { expressId, globalId, type := entity.type, inheritanceChain,
        name, description, objectType, spatial, properties,
        quantities := [], material, classifications, relationships }
    { elements := setA st.elements expressId element
      byType := addToKey st.byType entity.type expressId
      byStorey :=
        match spatial.storey with
        | some s => if s.isEmpty then st.byStorey else addToKey st.byStorey s expressId
        | none => st.byStorey
      byClassification
      byMaterial
      propertySetsFound
      classificationSystems }

/-- `buildElementIndex` (the `async` wrapper contains no suspension; the
function is pure).  All structure mirrors the source: relationship reverse
maps, then the element-to-spatial map, then the entity loop, then the index
object. -/
def buildElementIndex (parseResult : ParseResult)
    (options : IndexOptions := {}) : ElementIndex :=
  let (propertyRelations, typeRelations) :=
    match options.relationships with
    | some rels => buildRelationMaps rels
    | none => ([], [])
  let elementToSpatial :=
    match options.spatialHierarchy with
    | some sh => buildElementToSpatial parseResult.entities sh
    | none => []
  let final :=
    parseResult.entities.foldl
      (fun st p => processEntity options propertyRelations typeRelations
        elementToSpatial st p.1 p.2)
      {}
  { elements := final.elements
    byType := final.byType
    byStorey := final.byStorey
    byClassification := final.byClassification
    byMaterial := final.byMaterial
    propertySets := final.propertySetsFound
    classificationSystems := final.classificationSystems }

/-- `index.getByType(type, includeSubtypes = true)`. -/
def ElementIndex.getByType (idx : ElementIndex) (type : String)
    (includeSubtypes : Bool := true) : List UnifiedElement :=
  if includeSubtypes then
    (idx.byType.map fun p =>
      if (getInheritanceChain p.1).contains type then
        p.2.filterMap fun id => idx.get id
      else []).flatten
  else
    match getA idx.byType type with
    | some ids => ids.filterMap fun id => idx.get id
    | none => []

/-! ## Glob semantics

Declarative meaning of the anchored regex that `globToRegex` builds: `*`
matches any run of characters (`star` consumes an arbitrary prefix of the
subject), `?` matches exactly one character, and every other pattern
character matches itself.  Anchoring is inherent: the whole subject must be
consumed (`nil`). -/
inductive GlobSem : List Char → List Char → Prop where
  | nil : GlobSem [] []
  | lit {p : Char} {ps vs : List Char} (hs : p ≠ '*') (hq : p ≠ '?') :
      GlobSem ps vs → GlobSem (p :: ps) (p :: vs)
  | one {ps : List Char} (v : Char) {vs : List Char} :
      GlobSem ps vs → GlobSem ('?' :: ps) (v :: vs)
  | star {ps : List Char} (pre : List Char) {suf : List Char} :
      GlobSem ps suf → GlobSem ('*' :: ps) (pre ++ suf)

theorem globSem_nil_inv {vs : List Char} (h : GlobSem [] vs) : vs = [] := by
  cases h
  rfl

theorem globSem_star_inv {ps vs : List Char} (h : GlobSem ('*' :: ps) vs) :
    ∃ pre suf, vs = pre ++ suf ∧ GlobSem ps suf := by
  cases h with
  | lit hs hq hsem => exact absurd rfl hs
  | star pre hsem => exact ⟨pre, _, rfl, hsem⟩

theorem globSem_cons_inv {p : Char} {ps vs : List Char} (hs : p ≠ '*')
    (h : GlobSem (p :: ps) vs) :
    ∃ v vs', vs = v :: vs' ∧ (p = '?' ∨ v = p) ∧ GlobSem ps vs' := by
  cases h with
  | lit hs' hq' hsem => exact ⟨_, _, rfl, Or.inr rfl, hsem⟩
  | one v hsem => exact ⟨v, _, rfl, Or.inl rfl, hsem⟩
  | star pre hsem => exact absurd rfl hs

theorem globMatch_nil (vs : List Char) : globMatch [] vs = vs.isEmpty := rfl

theorem globMatch_cons (p : Char) (ps vs : List Char) :
    globMatch (p :: ps) vs =
      if p = '*' then vs.tails.any fun suf => globMatch ps suf
      else
        match vs with
        | [] => false
        | v :: vs' => (if p = '?' then true else v == p) && globMatch ps vs' := rfl

theorem globMatch_iff_globSem (ps vs : List Char) :
    globMatch ps vs = true ↔ GlobSem ps vs := by
  induction ps generalizing vs with
  | nil =>
    rw [globMatch_nil]
    simp only [List.isEmpty_iff]
    constructor
    · rintro rfl
      exact GlobSem.nil
    · intro h
      exact globSem_nil_inv h
  | cons p ps ih =>
    by_cases hstar : p = '*'
    · subst hstar
      rw [globMatch_cons, if_pos rfl, List.any_eq_true]
      constructor
      · rintro ⟨suf, hsuf, hm⟩
        rw [List.mem_tails] at hsuf
        obtain ⟨pre, rfl⟩ := hsuf
        exact GlobSem.star pre ((ih suf).mp hm)
      · intro h
        obtain ⟨pre, suf, rfl, hsem⟩ := globSem_star_inv h
        exact ⟨suf, by rw [List.mem_tails]; exact ⟨pre, rfl⟩, (ih _).mpr hsem⟩
    · cases vs with
      | nil =>
        rw [globMatch_cons, if_neg hstar]
        constructor
        · intro h
          exact absurd h (by simp)
        · intro h
          obtain ⟨v, vs', hvs, _, _⟩ := globSem_cons_inv hstar h
          exact List.noConfusion hvs
      | cons v vs' =>
        by_cases hq : p = '?'
        · subst hq
          rw [globMatch_cons, if_neg hstar]
          simp only [if_pos rfl, Bool.true_and]
          constructor
          · intro hm
            exact GlobSem.one v ((ih vs').mp hm)
          · intro h
            obtain ⟨w, ws, hvs, _, hsem⟩ := globSem_cons_inv hstar h
            obtain ⟨rfl, rfl⟩ : v = w ∧ vs' = ws :=
              ⟨(List.cons.injEq ..).mp hvs |>.1, (List.cons.injEq ..).mp hvs |>.2⟩
            exact (ih _).mpr hsem
        · rw [globMatch_cons, if_neg hstar]
          simp only [if_neg hq, Bool.and_eq_true, beq_iff_eq]
          constructor
          · rintro ⟨rfl, hm⟩
            exact GlobSem.lit hstar hq ((ih vs').mp hm)
          · intro h
            obtain ⟨w, ws, hvs, hvp, hsem⟩ := globSem_cons_inv hstar h
            obtain ⟨rfl, rfl⟩ : v = w ∧ vs' = ws :=
              ⟨(List.cons.injEq ..).mp hvs |>.1, (List.cons.injEq ..).mp hvs |>.2⟩
            rcases hvp with hvp | hvp
            · exact absurd hvp hq
            · exact ⟨hvp, (ih _).mpr hsem⟩

/-! ## Helper lemmas on the evaluator -/

theorem anyCondition_eq_any (re : RegexEngine) (e : UnifiedElement)
    (cs : List Condition) :
    anyCondition re e cs = cs.any (evaluateCondition re e) := by
  induction cs with
  | nil => rw [anyCondition]; rfl
  | cons c cs ih => rw [anyCondition, ih]; rfl

theorem allCondition_eq_all (re : RegexEngine) (e : UnifiedElement)
    (cs : List Condition) :
    allCondition re e cs = cs.all (evaluateCondition re e) := by
  induction cs with
  | nil => rw [allCondition]; rfl
  | cons c cs ih => rw [allCondition, ih]; rfl

/-- Membership characterization of `select`'s result list. -/
theorem mem_select_expressIds (re : RegexEngine) (idx : ElementIndex)
    (rule : SelectionRule) (id : ℕ) :
    id ∈ (select re idx rule).expressIds ↔
      ∃ e ∈ idx.values, e.expressId = id ∧
        ruleMatches re (rule.mode.getD .all) rule e = true := by
  simp only [select, createSelectionResult, List.mem_map, List.mem_filter]
  constructor
  · rintro ⟨e, ⟨he, hm⟩, rfl⟩
    exact ⟨e, he, rfl, hm⟩
  · rintro ⟨e, he, rfl, hm⟩
    exact ⟨e, ⟨he, hm⟩, rfl⟩

/-! ## Claim theorems -/

/-- C3: a `not` composite with children `[C1, …, Cn]` matches an element iff
none of the children matches it — it negates the disjunction of its
children, not the conjunction. -/
theorem C3_not_composite_matches_none (re : RegexEngine) (e : UnifiedElement)
    (cs : List Condition) :
    evaluateCondition re e (.not cs) = true ↔
      ∀ c ∈ cs, evaluateCondition re e c = false := by
  rw [evaluateCondition, Bool.not_eq_true', anyCondition_eq_any]
  simp only [List.any_eq_false, Bool.not_eq_true]

/-- C4: a rule whose top-level conditions list is empty, under mode `all`,
matches every indexed element — `select` returns the ids of all elements of
the index, in index order (the vacuous conjunction). -/
theorem C4_empty_conditions_mode_all_selects_all (re : RegexEngine)
    (idx : ElementIndex) (rid rname : String) (rdesc : Option String) :
    (select re idx ⟨rid, rname, rdesc, [], some .all⟩).expressIds =
      idx.values.map (·.expressId) := by
  simp [select, createSelectionResult, ruleMatches]

/-- C5 counterexample: at an absolute difference of exactly `1e-4` the code's
`Math.abs(value - compareValue) < 0.0001` is false, so numeric `equals`
rejects the pair that the claim ("including a difference of exactly 1e-4")
accepts. -/
theorem C5_counterexample_exact_tolerance_rejected :
    |(1/10000 : ℚ) - 0| = 1/10000 ∧
    evaluateNumericOperator (.num (1/10000)) .equals 0 none = false := by
  have habs : |(1/10000 : ℚ) - 0| = 1/10000 := by
    rw [sub_zero]
    exact abs_of_nonneg (by norm_num)
  refine ⟨habs, ?_⟩
  rw [evaluateNumericOperator]
  simp only [decide_eq_false_iff_not, habs, not_lt, le_refl]

/-- C5 (amended): numeric `equals` is true exactly when the subject is a
number whose absolute difference from the comparison value is *strictly*
below `1e-4` (a difference of exactly `1e-4` is not equal); `notEquals` is
its exact negation; and a missing or NaN subject satisfies only
`notEquals`. -/
theorem C5_numeric_tolerance_strict (v : NumValue) (c : ℚ) (t : Option ℚ) :
    (evaluateNumericOperator v .equals c t = true ↔
      ∃ q, v = .num q ∧ |q - c| < 1/10000) ∧
    (evaluateNumericOperator v .notEquals c t =
      !evaluateNumericOperator v .equals c t) ∧
    (∀ op, v = .missing ∨ v = .nan →
      (evaluateNumericOperator v op c t = true ↔ op = .notEquals)) := by
  refine ⟨?_, ?_, ?_⟩
  · cases v with
    | missing => simp [evaluateNumericOperator]
    | nan => simp [evaluateNumericOperator]
    | num q =>
      rw [evaluateNumericOperator]
      simp only [decide_eq_true_eq, NumValue.num.injEq]
      constructor
      · intro h
        exact ⟨q, rfl, h⟩
      · rintro ⟨q', rfl, h⟩
        exact h
  · cases v with
    | missing => rfl
    | nan => rfl
    | num q =>
      rw [evaluateNumericOperator, evaluateNumericOperator]
      rw [Bool.eq_iff_iff]
      simp [not_lt]
  · rintro op (rfl | rfl) <;>
      simp [evaluateNumericOperator]

/-- C5 witness: the missing/NaN clause instantiated at a NaN subject and
the `notEquals` operator. -/
theorem C5_numeric_tolerance_strict_witness :
    evaluateNumericOperator .nan .notEquals 5 none = true :=
  ((C5_numeric_tolerance_strict .nan 5 none).2.2 .notEquals (Or.inr rfl)).mpr rfl

/-- C6: pattern matching — a null/undefined subject never matches; a
wildcard pattern is an anchored case-insensitive glob (`*` = any run,
`?` = one character, all other characters literal, per the declarative
`GlobSem`); a pattern without wildcards is case-insensitive exact equality;
`"IFCWALL"` matches `"IfcWall"`, and `"Pset_*"` matches
`"Pset_WallCommon"`. -/
theorem C6_pattern_matching_semantics :
    (∀ pattern, matchesPattern none pattern = false) ∧
    (∀ v pattern, hasWildcard pattern = true →
      (matchesPattern (some v) pattern = true ↔
        GlobSem (lowerStr pattern).data (lowerStr v).data)) ∧
    (∀ v pattern, hasWildcard pattern = false →
      (matchesPattern (some v) pattern = true ↔ lowerStr v = lowerStr pattern)) ∧
    matchesPattern (some "IfcWall") "IFCWALL" = true ∧
    matchesPattern (some "Pset_WallCommon") "Pset_*" = true := by
  refine ⟨fun pattern => rfl, ?_, ?_, by decide, by decide⟩
  · intro v pattern hw
    rw [matchesPattern]
    simp only [hw, if_true, globMatch_iff_globSem]
  · intro v pattern hw
    simp [matchesPattern, hw]

/-- C6 witness: the wildcard clause instantiated at pattern `"Pset_*"` and
subject `"Pset_WallCommon"`. -/
theorem C6_pattern_matching_semantics_witness :
    GlobSem (lowerStr "Pset_*").data (lowerStr "Pset_WallCommon").data :=
  (C6_pattern_matching_semantics.2.1 "Pset_WallCommon" "Pset_*" (by decide)).mp
    (by decide)

/-- C7 counterexample: with a boolean subject `true`, `equals` against the
claimed recognized true-form `"TRUE"` returns `false` (the operator-level
coercion accepts only `true`, `'true'` and `'.T.'`), and `parseBooleanValue`
additionally recognizes `".T."` — so the claimed coercion table is wrong on
both sides. -/
theorem C7_counterexample_boolean_coercion :
    evaluateOperator noRegex (.vBool true) .equals (some (.cStr "TRUE")) none = false ∧
    parseBooleanValue (.vStr ".T.") = some true := by
  constructor
  · rfl
  · rfl

/-- C7 (amended): `parseBooleanValue` recognizes native booleans and the
strings `.T./true/TRUE/1` as true and `.F./false/FALSE/0` as false, nothing
else; but the boolean branch of `evaluateOperator` uses a narrower coercion
of the comparison value — only `true`, `'true'` and `'.T.'` count as
true-forms, every other comparison value (including `'TRUE'` and `'1'`)
acts as false — with `equals` returning whether the subject agrees with
that coercion and `notEquals` its exact negation. -/
theorem C7_boolean_coercion_tables (re : RegexEngine) (b : Bool)
    (cv : Option CVal) (t : Option ℚ) (v : Val) :
    (evaluateOperator re (.vBool b) .equals cv t =
      (b == (cv == some (.cBool true) || cv == some (.cStr "true") ||
             cv == some (.cStr ".T.")))) ∧
    (evaluateOperator re (.vBool b) .notEquals cv t =
      !(b == (cv == some (.cBool true) || cv == some (.cStr "true") ||
              cv == some (.cStr ".T.")))) ∧
    (parseBooleanValue v = some true ↔
      v ∈ [Val.vBool true, .vStr ".T.", .vStr "true", .vStr "TRUE", .vStr "1"]) ∧
    (parseBooleanValue v = some false ↔
      v ∈ [Val.vBool false, .vStr ".F.", .vStr "false", .vStr "FALSE", .vStr "0"]) := by
  refine ⟨rfl, rfl, ?_, ?_⟩
  · cases v with
    | vStr s =>
      rw [parseBooleanValue]
      split
      · next h =>
        simp only [List.mem_cons, List.not_mem_nil, or_false]
        rcases Bool.or_eq_true_iff.mp h with h' | h'
        · rcases Bool.or_eq_true_iff.mp h' with h'' | h''
          · rcases Bool.or_eq_true_iff.mp h'' with h3 | h3
            · simp [beq_iff_eq.mp h3]
            · simp [beq_iff_eq.mp h3]
          · simp [beq_iff_eq.mp h'']
        · simp [beq_iff_eq.mp h']
      · next h =>
        split
        · next h2 =>
          simp only [List.mem_cons, List.not_mem_nil, or_false]
          constructor
          · intro hfalse
            exact absurd hfalse (by simp)
          · intro hmem
            exfalso
            rcases hmem with h3 | h3 | h3 | h3 | h3 <;> simp_all
        · next h2 =>
          simp only [List.mem_cons, List.not_mem_nil, or_false]
          constructor
          · intro hnone
            exact absurd hnone (by simp)
          · intro hmem
            exfalso
            rcases hmem with h3 | h3 | h3 | h3 | h3 <;> simp_all
    | vBool b => cases b <;> simp [parseBooleanValue]
    | vNum q => simp [parseBooleanValue]
    | vNaN => simp [parseBooleanValue]
    | vNull => simp [parseBooleanValue]
  · cases v with
    | vStr s =>
      rw [parseBooleanValue]
      split
      · next h =>
        simp only [List.mem_cons, List.not_mem_nil, or_false]
        constructor
        · intro htrue
          exact absurd htrue (by simp)
        · intro hmem
          exfalso
          rcases hmem with h3 | h3 | h3 | h3 | h3 <;> simp_all
      · next h =>
        split
        · next h2 =>
          simp only [List.mem_cons, List.not_mem_nil, or_false]
          rcases Bool.or_eq_true_iff.mp h2 with h' | h'
          · rcases Bool.or_eq_true_iff.mp h' with h'' | h''
            · rcases Bool.or_eq_true_iff.mp h'' with h3 | h3
              · simp [beq_iff_eq.mp h3]
              · simp [beq_iff_eq.mp h3]
            · simp [beq_iff_eq.mp h'']
          · simp [beq_iff_eq.mp h']
        · next h2 =>
          simp only [List.mem_cons, List.not_mem_nil, or_false]
          constructor
          · intro hnone
            exact absurd hnone (by simp)
          · intro hmem
            exfalso
            rcases hmem with h3 | h3 | h3 | h3 | h3 <;> simp_all
    | vBool b => cases b <;> simp [parseBooleanValue]
    | vNum q => simp [parseBooleanValue]
    | vNaN => simp [parseBooleanValue]
    | vNull => simp [parseBooleanValue]

/-- The `matches` operator under a failed regex compilation is false for
every subject value routed through the general dispatcher. -/
theorem evaluateOperator_matches_invalid (re : RegexEngine) (value : Val)
    (cv : Option CVal) (t : Option ℚ)
    (h : re.compile (cvalOrEmptyToString cv) = none) :
    evaluateOperator re value .matches cv t = false := by
  have hs : ∀ s, evaluateStringOperator re (some s) .matches
      (cvalOrEmptyToString cv) = false := by
    intro s
    rw [evaluateStringOperator]
    simp only [h]
  cases value with
  | vNull => rfl
  | vBool b => rfl
  | vStr s => exact hs s
  | vNum q =>
    cases cv with
    | none => exact hs _
    | some c =>
      cases c with
      | cNum c' => rfl
      | cStr s => exact hs _
      | cBool b => exact hs _
      | cNull => exact hs _
  | vNaN =>
    cases cv with
    | none => exact hs _
    | some c =>
      cases c with
      | cNum c' => rfl
      | cStr s => exact hs _
      | cBool b => exact hs _
      | cNull => exact hs _

/-- A property condition under the `matches` operator with a failed regex
compilation is false regardless of whether the property resolves. -/
theorem evaluatePropertyCondition_matches_invalid (re : RegexEngine)
    (e' : UnifiedElement) (ps pn : String) (cv : Option CVal) (vTo : Option ℚ)
    (h : re.compile (cvalOrEmptyToString cv) = none) :
    evaluatePropertyCondition re e' ps pn .matches cv vTo = false := by
  rw [show evaluatePropertyCondition re e' ps pn .matches cv vTo =
      (match findPropertyValue e'.properties ps pn with
       | none =>
         (ComparisonOperator.matches == .notEquals ||
          ComparisonOperator.matches == .notExistsOp)
       | some propValue => evaluateOperator re propValue.value .matches cv vTo)
    from rfl]
  cases hfp : findPropertyValue e'.properties ps pn with
  | none => rfl
  | some propValue => exact evaluateOperator_matches_invalid re _ cv vTo h

/-- C8: evaluation-time failures are fail-closed — a `matches` condition
whose comparison value does not compile as a regular expression evaluates
to `false` on every element (never an error), whether it reaches the string
evaluator directly (attribute conditions) or through the general dispatcher
(property conditions); an unrecognized condition kind evaluates to `false`;
and a full-index `select` over such a rule completes with an empty result
rather than raising. -/
theorem C8_invalid_regex_fail_closed (re : RegexEngine) (e : UnifiedElement)
    (a : AttributeKey) (ps pn c : String) (cv : Option CVal) (vTo : Option ℚ)
    (idx : ElementIndex) (rid rname : String) (rdesc : Option String) :
    (re.compile c = none → ∀ ov : Option String,
      evaluateStringOperator re ov .matches c = false) ∧
    (re.compile c = none →
      evaluateCondition re e (.attrib a .matches c) = false) ∧
    (re.compile (cvalOrEmptyToString cv) = none →
      evaluateCondition re e (.property ps pn .matches cv vTo) = false) ∧
    evaluateCondition re e .unknown = false ∧
    (re.compile (cvalOrEmptyToString cv) = none →
      (select re idx
        ⟨rid, rname, rdesc, [.property ps pn .matches cv vTo], some .all⟩).expressIds
        = []) := by
  have hstr : re.compile c = none → ∀ ov : Option String,
      evaluateStringOperator re ov .matches c = false := by
    intro h ov
    cases ov with
    | none => rfl
    | some v =>
      rw [evaluateStringOperator]
      simp only [h]
  have hprop : re.compile (cvalOrEmptyToString cv) = none →
      ∀ e' : UnifiedElement,
        evaluateCondition re e' (.property ps pn .matches cv vTo) = false := by
    intro h e'
    rw [evaluateCondition]
    exact evaluatePropertyCondition_matches_invalid re e' ps pn cv vTo h
  refine ⟨hstr, ?_, fun h => hprop h e, rfl, ?_⟩
  · intro h
    rw [evaluateCondition]
    cases a <;> exact hstr h _
  · intro h
    simp only [select, createSelectionResult]
    rw [List.map_eq_nil_iff, List.filter_eq_nil_iff]
    intro e' _
    simp [ruleMatches, hprop h e']

/-- A minimal concrete element for instantiating hypothesis-bearing
theorems. -/
def sampleElement : UnifiedElement :=
  { expressId := 1, globalId := "w1", type := "IfcWall",
    inheritanceChain := ["IfcRoot", "IfcObjectDefinition", "IfcObject",
      "IfcProduct", "IfcElement", "IfcBuildingElement", "IfcWall"],
    spatial := {}, properties := [], quantities := [],
    classifications := [], relationships := {} }

/-- A minimal concrete index holding `sampleElement`. -/
def sampleIndex : ElementIndex :=
  { elements := [(1, sampleElement)], byType := [("IfcWall", [1])],
    byStorey := [], byClassification := [], byMaterial := [],
    propertySets := ["Pset_WallCommon"], classificationSystems := [] }

/-- C8 witness: clause 2 instantiated at `noRegex` (every compile fails),
the sample element and the pattern `"("`. -/
theorem C8_invalid_regex_fail_closed_witness :
    evaluateCondition noRegex sampleElement
      (.attrib .name .matches "(") = false :=
  (C8_invalid_regex_fail_closed noRegex sampleElement .name "" "" "(" none none
    sampleIndex "r" "r" none).2.1 rfl

/-- C2: mode semantics of `select` — with two top-level conditions, mode
`all` selects exactly the ids matched by both conditions and mode `any`
exactly those matched by at least one (per-condition match sets taken as
singleton-rule selections); a rule with no mode behaves as mode `all`.
Requires the index invariant that element ids are unique. -/
theorem C2_select_mode_set_semantics (re : RegexEngine) (idx : ElementIndex)
    (c1 c2 : Condition) (rid rname : String) (rdesc : Option String)
    (hnd : (idx.values.map (·.expressId)).Nodup) :
    (∀ id, id ∈ (select re idx ⟨rid, rname, rdesc, [c1, c2], some .all⟩).expressIds ↔
      id ∈ (select re idx ⟨rid, rname, rdesc, [c1], some .all⟩).expressIds ∧
      id ∈ (select re idx ⟨rid, rname, rdesc, [c2], some .all⟩).expressIds) ∧
    (∀ id, id ∈ (select re idx ⟨rid, rname, rdesc, [c1, c2], some .any⟩).expressIds ↔
      id ∈ (select re idx ⟨rid, rname, rdesc, [c1], some .all⟩).expressIds ∨
      id ∈ (select re idx ⟨rid, rname, rdesc, [c2], some .all⟩).expressIds) ∧
    ∀ conds, (select re idx ⟨rid, rname, rdesc, conds, none⟩).expressIds =
      (select re idx ⟨rid, rname, rdesc, conds, some .all⟩).expressIds := by
  have hinj : ∀ x ∈ idx.values, ∀ y ∈ idx.values,
      x.expressId = y.expressId → x = y :=
    List.inj_on_of_nodup_map hnd
  have hone : ∀ (c : Condition) (id : ℕ),
      id ∈ (select re idx ⟨rid, rname, rdesc, [c], some .all⟩).expressIds ↔
      ∃ e ∈ idx.values, e.expressId = id ∧ evaluateCondition re e c = true := by
    intro c id
    rw [mem_select_expressIds]
    constructor
    · rintro ⟨e, he, rfl, hm⟩
      refine ⟨e, he, rfl, ?_⟩
      simpa [ruleMatches] using hm
    · rintro ⟨e, he, rfl, hm⟩
      refine ⟨e, he, rfl, ?_⟩
      simpa [ruleMatches] using hm
  refine ⟨?_, ?_, fun conds => rfl⟩
  · intro id
    rw [mem_select_expressIds, hone, hone]
    constructor
    · rintro ⟨e, he, rfl, hm⟩
      rw [show ruleMatches re ((some Mode.all).getD .all)
            ⟨rid, rname, rdesc, [c1, c2], some .all⟩ e =
          (evaluateCondition re e c1 && evaluateCondition re e c2) by
        simp [ruleMatches]] at hm
      obtain ⟨h1, h2⟩ := Bool.and_eq_true_iff.mp hm
      exact ⟨⟨e, he, rfl, h1⟩, ⟨e, he, rfl, h2⟩⟩
    · rintro ⟨⟨e1, he1, heq1, h1⟩, ⟨e2, he2, heq2, h2⟩⟩
      obtain rfl : e1 = e2 := hinj e1 he1 e2 he2 (heq1.trans heq2.symm)
      refine ⟨e1, he1, heq1, ?_⟩
      simp [ruleMatches, h1, h2]
  · intro id
    rw [mem_select_expressIds, hone, hone]
    constructor
    · rintro ⟨e, he, rfl, hm⟩
      rw [show ruleMatches re ((some Mode.any).getD .all)
            ⟨rid, rname, rdesc, [c1, c2], some .any⟩ e =
          (evaluateCondition re e c1 || evaluateCondition re e c2) by
        simp [ruleMatches]] at hm
      rcases Bool.or_eq_true_iff.mp hm with h1 | h2
      · exact Or.inl ⟨e, he, rfl, h1⟩
      · exact Or.inr ⟨e, he, rfl, h2⟩
    · rintro (⟨e, he, rfl, h1⟩ | ⟨e, he, rfl, h2⟩)
      · refine ⟨e, he, rfl, ?_⟩
        simp [ruleMatches, h1]
      · refine ⟨e, he, rfl, ?_⟩
        simp [ruleMatches, h2]

/-- C2 witness: the no-mode clause applied to the sample index. -/
theorem C2_select_mode_set_semantics_witness :
    (select noRegex sampleIndex ⟨"r", "r", none, [], none⟩).expressIds =
      (select noRegex sampleIndex ⟨"r", "r", none, [], some .all⟩).expressIds :=
  (C2_select_mode_set_semantics noRegex sampleIndex .unknown .unknown "r" "r"
    none (by decide)).2.2 []

theorem length_filterMap_of_isSome {α β : Type} (f : α → Option β) (l : List α)
    (h : ∀ a ∈ l, (f a).isSome = true) : (l.filterMap f).length = l.length := by
  induction l with
  | nil => rfl
  | cons a l ih =>
    obtain ⟨b, hb⟩ := Option.isSome_iff_exists.mp (h a (List.mem_cons_self a l))
    rw [List.filterMap_cons, hb]
    simp [ih fun x hx => h x (List.mem_cons_of_mem a hx)]

/-- The invariant that `buildElementIndex` establishes for the element map:
keys are unique and each key is the `expressId` of the element it maps
to. -/
def ElementIndex.WellFormedKeys (idx : ElementIndex) : Prop :=
  (idx.elements.map (·.1)).Nodup ∧ ∀ p ∈ idx.elements, p.1 = p.2.expressId

/-- C10: the `SelectionResult` of any `select` over a well-formed index is
well-formed — `count` equals the length of `expressIds`; `expressIds` holds
no duplicates and is in index iteration order (a sublist of the index's id
sequence); every listed id resolves through `index.get`; and `getElements`
returns exactly one record per id. -/
theorem C10_selection_result_well_formed (re : RegexEngine)
    (idx : ElementIndex) (rule : SelectionRule) (h : idx.WellFormedKeys) :
    (select re idx rule).count = (select re idx rule).expressIds.length ∧
    (select re idx rule).expressIds.Nodup ∧
    (select re idx rule).expressIds.Sublist (idx.values.map (·.expressId)) ∧
    (∀ id ∈ (select re idx rule).expressIds, (idx.get id).isSome = true) ∧
    (getElements idx (select re idx rule)).length =
      (select re idx rule).expressIds.length := by
  obtain ⟨hnd, hkey⟩ := h
  have hvals : idx.values.map (·.expressId) = idx.elements.map (·.1) := by
    rw [ElementIndex.values, List.map_map]
    exact List.map_congr_left fun p hp => (hkey p hp).symm
  have hsub : (select re idx rule).expressIds.Sublist
      (idx.values.map (·.expressId)) := by
    simp only [select, createSelectionResult]
    exact (List.filter_sublist _).map _
  have hsome : ∀ id ∈ (select re idx rule).expressIds, (idx.get id).isSome = true := by
    intro id hid
    rw [mem_select_expressIds] at hid
    obtain ⟨e, he, rfl, _⟩ := hid
    rw [ElementIndex.values, List.mem_map] at he
    obtain ⟨p, hp, rfl⟩ := he
    rw [ElementIndex.get, getA, Option.isSome_map', List.find?_isSome]
    exact ⟨p, hp, by rw [beq_iff_eq]; exact hkey p hp⟩
  refine ⟨rfl, ?_, hsub, hsome, ?_⟩
  · refine hsub.nodup ?_
    rw [hvals]
    exact hnd
  · exact length_filterMap_of_isSome _ _ hsome

/-- C10 witness: the invariant holds of the sample index and the
count–length equation follows for a concrete selection. -/
theorem C10_selection_result_well_formed_witness :
    sampleIndex.WellFormedKeys ∧
    (select noRegex sampleIndex ⟨"r", "r", none, [], none⟩).count =
      (select noRegex sampleIndex ⟨"r", "r", none, [], none⟩).expressIds.length := by
  have hwf : sampleIndex.WellFormedKeys := ⟨by decide, by decide⟩
  exact ⟨hwf,
    (C10_selection_result_well_formed noRegex sampleIndex
      ⟨"r", "r", none, [], none⟩ hwf).1⟩

/-- C9: validation severity — `valid` is false exactly for a rule with zero
conditions (the only hard error); a property condition referencing a
namespace the index never observed, or a classification condition
referencing an unknown system, produces exactly one warning (and such a
warning inside a composite still leaves the rule valid, the recursion
reaching it through the composite's children). -/
theorem C9_validation_error_vs_warning (idx : ElementIndex)
    (rule : SelectionRule) (ps pn : String) (op : ComparisonOperator)
    (cv : Option CVal) (vTo : Option ℚ) (rid rname : String)
    (rdesc : Option String) (mode : Option Mode) :
    ((validateRule idx rule).valid = true ↔ rule.conditions ≠ []) ∧
    (ps ≠ "*" → ps.data.contains '*' = false →
      idx.propertySets.contains ps = false →
      ∀ path, (validateCondition idx (.property ps pn op cv vTo) path).length = 1) ∧
    (∀ s, s ≠ "" → s ≠ "*" → s.data.contains '*' = false →
      idx.classificationSystems.contains s = false →
      ∀ code nm path,
        (validateCondition idx (.classification (some s) code nm) path).length = 1) ∧
    (ps ≠ "*" → ps.data.contains '*' = false →
      idx.propertySets.contains ps = false →
      (validateRule idx ⟨rid, rname, rdesc,
        [Condition.not [.property ps pn op cv vTo]], mode⟩).valid = true ∧
      (validateRule idx ⟨rid, rname, rdesc,
        [Condition.not [.property ps pn op cv vTo]], mode⟩).warnings.length = 1) := by
  have hvalid : ∀ r : SelectionRule,
      (validateRule idx r).valid = true ↔ r.conditions ≠ [] := by
    intro r
    cases hc : r.conditions with
    | nil => simp [validateRule, hc]
    | cons c cs => simp [validateRule, hc]
  have hpw : ps ≠ "*" → ps.data.contains '*' = false →
      idx.propertySets.contains ps = false →
      ∀ path, (validateCondition idx (.property ps pn op cv vTo) path).length = 1 := by
    intro h1 h2 h3 path
    rw [validateCondition]
    have h2' : '*' ∉ ps.data := by simpa using h2
    have h3' : ps ∉ idx.propertySets := by simpa using h3
    simp [h1, h2', h3']
  refine ⟨hvalid rule, hpw, ?_, ?_⟩
  · intro s h0 h1 h2 h3 code nm path
    rw [validateCondition]
    have h0' : s.isEmpty = false := by
      rw [Bool.eq_false_iff]
      intro hem
      exact h0 ((String.isEmpty_iff s).mp hem)
    have h2' : '*' ∉ s.data := by simpa using h2
    have h3' : s ∉ idx.classificationSystems := by simpa using h3
    simp [h0', h1, h2', h3']
  · intro h1 h2 h3
    constructor
    · rw [hvalid]
      simp
    · have hlen : ∀ path,
          (validateCondition idx
            (Condition.not [.property ps pn op cv vTo]) path).length = 1 := by
        intro path
        rw [validateCondition, validateConditionList, validateConditionList,
          List.append_nil]
        exact hpw h1 h2 h3 _
      simp only [validateRule]
      simp [hlen]

/-- C9 witness: a rule whose single condition is a `not` wrapping a property
condition on an unseen namespace validates with `valid = true` and exactly
one warning on the sample index. -/
theorem C9_validation_error_vs_warning_witness :
    (validateRule sampleIndex ⟨"r", "r", none,
      [Condition.not [.property "Pset_X" "IsExternal" .equals none none]],
      none⟩).valid = true ∧
    (validateRule sampleIndex ⟨"r", "r", none,
      [Condition.not [.property "Pset_X" "IsExternal" .equals none none]],
      none⟩).warnings.length = 1 :=
  (C9_validation_error_vs_warning sampleIndex ⟨"r", "r", none, [], none⟩
    "Pset_X" "IsExternal" .equals none none "r" "r" none none).2.2.2
    (by decide) (by decide) (by decide)

/-- C1 (code-bug evidence): a pure relationship record of type
`IfcRelDefinesByProperties` is outside the static ancestry table (its chain
is the single-element fallback, containing neither `IfcProduct` nor
`IfcSpatialStructureElement`), yet `buildElementIndex` indexes it — the
skip test `!isProduct && !entity.type.startsWith('Ifc')` retains every
entity whose type name starts with `Ifc`, contradicting the loop's own
comment "Skip non-product entities (relationships, property sets,
etc.)". -/
theorem C1_relationship_record_indexed :
    getInheritanceChain "IfcRelDefinesByProperties" =
      ["IfcRelDefinesByProperties"] ∧
    ((getInheritanceChain "IfcRelDefinesByProperties").contains "IfcProduct" ||
     (getInheritanceChain "IfcRelDefinesByProperties").contains
       "IfcSpatialStructureElement") = false ∧
    ((buildElementIndex
        ⟨[(1, ⟨1, "IfcRelDefinesByProperties", []⟩)], []⟩ {}).elements.map
      fun p => p.1) = [1] := by
  refine ⟨by decide, by decide, by decide⟩

end IfcRules
